import Mathlib

/-!
Verification of the column classifier and chart-configuration logic of a
CSV data-visualization tool (`classifier.py`, `chart_utils.py`).

Columns are modelled as lists of optional rationals: `none` is a missing
entry (NaN), `some q` a numeric value.  Pandas/NumPy scalars are embedded
as rationals; `float(x).is_integer()` becomes `q.den = 1`.
-/

/-- A cell of a numeric-dtype column: `none` is a missing entry (NaN). -/
abbrev Cell := Option ℚ

/-- `series.dropna()`: the non-missing values of a column, in order. -/
def dropna (cells : List Cell) : List ℚ := cells.filterMap id

/-- `series.dropna().unique()`: the distinct non-missing values.  Only the
length and membership of this list matter to the classifier. -/
def uniqueVals (cells : List Cell) : List ℚ := (dropna cells).dedup

/-- Model of `classifier.classify_column`.  `numericDtype` stands for
`pd.api.types.is_numeric_dtype(series)`; when it is false, the values play
no role (textual columns are `Categorical` outright).
`set(unique_vals).issubset(\x7b0, 1\x7d)` is the boolean test that every
distinct non-missing value is `0` or `1`; the integrality test
`float(x).is_integer()` is `q.den = 1`; `series.nunique()` is the number of
distinct non-missing values. -/
def classify_column (numericDtype : Bool) (cells : List Cell) : String :=
  if numericDtype then
    if (uniqueVals cells).all (fun q => q == 0 || q == 1) then
      "Categorical"
    else if (dropna cells).all (fun q => q.den == 1) then
      if (uniqueVals cells).length < 20 then "Numeric (Discrete)"
      else "Numeric (Continuous)"
    else "Numeric (Continuous)"
  else "Categorical"

/-- C1: a numeric column whose distinct non-missing values all lie in
{0, 1} — including a column with no non-missing values at all — is
classified `Categorical`, whatever its row count. -/
theorem classify_binary_subset_categorical (cells : List Cell)
    (h : ∀ q ∈ dropna cells, q = 0 ∨ q = 1) :
    classify_column true cells = "Categorical" := by
  have hall : (uniqueVals cells).all (fun q => q == 0 || q == 1) = true := by
    rw [List.all_eq_true]
    intro q hq
    rcases h q (List.mem_dedup.mp hq) with h0 | h1
    · simp [h0]
    · simp [h1]
  simp [classify_column, hall]

/-- Witness for C1 on the concrete column `[0, 1, NaN, 1]`. -/
theorem classify_binary_subset_categorical_witness :
    (∀ q ∈ dropna [some 0, some 1, none, some 1], q = 0 ∨ q = 1) ∧
    classify_column true [some 0, some 1, none, some 1] = "Categorical" :=
  ⟨by decide, classify_binary_subset_categorical _ (by decide)⟩

/-- C2: a numeric column not caught by the {0,1}-subset rule, all of whose
non-missing values are integral, is classified `Numeric (Discrete)` when it
has fewer than 20 distinct values and `Numeric (Continuous)` otherwise. -/
theorem classify_integral_count_rule (cells : List Cell)
    (h01 : ¬ ∀ q ∈ dropna cells, q = 0 ∨ q = 1)
    (hint : ∀ q ∈ dropna cells, q.den = 1) :
    classify_column true cells =
      if (uniqueVals cells).length < 20 then "Numeric (Discrete)"
      else "Numeric (Continuous)" := by
  push_neg at h01
  obtain ⟨q, hq, hq0, hq1⟩ := h01
  have hall : (uniqueVals cells).all (fun q => q == 0 || q == 1) = false := by
    rw [List.all_eq_false]
    exact ⟨q, List.mem_dedup.mpr hq, by simp [hq0, hq1]⟩
  have hintb : (dropna cells).all (fun q => q.den == 1) = true := by
    rw [List.all_eq_true]
    intro r hr
    simp [hint r hr]
  simp [classify_column, hall, hintb]

/-- Witness for C2 on the concrete column `[2, 3, NaN]` (distinct count 2,
all integral, not a subset of {0,1}). -/
theorem classify_integral_count_rule_witness :
    (¬ ∀ q ∈ dropna [some 2, some 3, none], q = 0 ∨ q = 1) ∧
    (∀ q ∈ dropna [some 2, some 3, none], q.den = 1) ∧
    classify_column true [some 2, some 3, none] =
      (if (uniqueVals [some 2, some 3, none]).length < 20
        then "Numeric (Discrete)" else "Numeric (Continuous)") :=
  ⟨by decide, by decide, classify_integral_count_rule _ (by decide) (by decide)⟩

/-- C9: the classifier is invariant under permutation of the rows: it only
looks at membership, an all-quantified predicate, and the distinct count,
none of which depend on row order. -/
theorem classify_perm_invariant (numericDtype : Bool) (cells cells' : List Cell)
    (h : cells.Perm cells') :
    classify_column numericDtype cells = classify_column numericDtype cells' := by
  have hd : (dropna cells).Perm (dropna cells') := h.filterMap id
  have hu : (uniqueVals cells).Perm (uniqueVals cells') := hd.dedup
  have hall : ∀ p : ℚ → Bool, (dropna cells).all p = (dropna cells').all p := by
    intro p
    rw [Bool.eq_iff_iff, List.all_eq_true, List.all_eq_true]
    constructor
    · intro hp q hq
      exact hp q (hd.mem_iff.mpr hq)
    · intro hp q hq
      exact hp q (hd.mem_iff.mp hq)
  have hallu : ∀ p : ℚ → Bool, (uniqueVals cells).all p = (uniqueVals cells').all p := by
    intro p
    rw [Bool.eq_iff_iff, List.all_eq_true, List.all_eq_true]
    constructor
    · intro hp q hq
      exact hp q (hu.mem_iff.mpr hq)
    · intro hp q hq
      exact hp q (hu.mem_iff.mp hq)
  unfold classify_column
  rw [hallu, hall, hu.length_eq]

/-- Witness for C9 on a concrete transposition. -/
theorem classify_perm_invariant_witness :
    ([some 1, some 2] : List Cell).Perm [some 2, some 1] ∧
    classify_column true [some 1, some 2] = classify_column true [some 2, some 1] :=
  ⟨by decide, classify_perm_invariant true _ _ (by decide)⟩

/-! ## Binning engine: `create_binned_data` (chart_utils.py lines 54-74) -/

/-- The break-building loop of `create_binned_data`: starting from
`min_val`, append `current` and advance by `bin_width` while
`current < max_val`.  `fuel` bounds the number of iterations; `binFuel`
below provably suffices for any positive width (`binLoop_fuel_stable`),
and for a nonpositive width the source loop does not terminate. -/
def binLoop (maxVal width : ℚ) : Nat → ℚ → List ℚ
  | 0, _ => []
  | fuel + 1, current =>
    if current < maxVal then current :: binLoop maxVal width fuel (current + width)
    else []

/-- An iteration bound sufficient for the loop started at `minVal`. -/
def binFuel (minVal maxVal width : ℚ) : Nat :=
  (⌈(maxVal - minVal) / width⌉).toNat + 1

/-- `bins`: the loop-built breaks followed by the forced final boundary
`max_val`, with duplicate breaks dropped (`duplicates='drop'`; in the exact
rational model duplicates never arise, see `computeBreaks_facts`, so the
pass only mirrors the float-drift guard of the source). -/
def computeBreaks (minVal maxVal width : ℚ) : List ℚ :=
  (binLoop maxVal width (binFuel minVal maxVal width) minVal ++ [maxVal]).dedup

/-- `np.searchsorted(bins, v, side='left')` as used by `pd.cut`: the index
of the first break `≥ v`, or the number of breaks when there is none. -/
def searchSorted (breaks : List ℚ) (v : ℚ) : Nat :=
  breaks.findIdx (fun b => v ≤ b)

/-- The bin index `pd.cut(..., right=True, include_lowest=True)` assigns to
a value `v`: interval `i` is `(breaks[i], breaks[i+1]]`; `include_lowest`
forces a value equal to the first break into interval `0`; values whose
searchsorted position is `0` or `len(bins)` are out of range (`NaN`). -/
def cutIndex (breaks : List ℚ) (v : ℚ) : Option Nat :=
  let s0 := searchSorted breaks v
  let s := if breaks.head? = some v then 1 else s0
  if s = 0 ∨ s = breaks.length then none else some (s - 1)

/-- `df[col].min()` over a nonempty list (pandas min skips NaN; the input
here is already the non-missing values). -/
def listMin (l : List ℚ) : ℚ := l.foldl min (l.headD 0)

/-- `df[col].max()` over a nonempty list. -/
def listMax (l : List ℚ) : ℚ := l.foldl max (l.headD 0)

/-- The `"{x:.2f}"` fixed-point rendering used for bin labels. -/
def formatTwoDec (q : ℚ) : String :=
  let n : ℤ := round (q * 100)
  let m := n.natAbs
  (if n < 0 then "-" else "") ++ toString (m / 100) ++ "." ++
    (if m % 100 < 10 then "0" else "") ++ toString (m % 100)

/-- One row of the binned frame: interval bounds, count, the
`"{left:.2f}-{right:.2f}"` label, and the midpoint `(left+right)/2`. -/
structure BinRow where
  lo : ℚ
  hi : ℚ
  count : Nat
  label : String
  midpoint : ℚ
deriving Repr, DecidableEq

/-- Model of `create_binned_data(df, col, bin_width)`: build the breaks
from the column minimum and maximum, cut the non-missing values with
right-closed intervals, and report one (interval, count) row per interval
in break order — `value_counts().sort_index()` on a categorical lists every
interval, empty ones with count zero. -/
def create_binned_data (column : List Cell) (width : ℚ) : List BinRow :=
  let values := dropna column
  let breaks := computeBreaks (listMin values) (listMax values) width
  let ivs := breaks.zip breaks.tail
  (List.range ivs.length).map (fun i =>
    let lo := (ivs.getD i (0, 0)).1
    let hi := (ivs.getD i (0, 0)).2
    { lo := lo, hi := hi,
      count := values.countP (fun v => cutIndex breaks v == some i),
      label := formatTwoDec lo ++ "-" ++ formatTwoDec hi,
      midpoint := (lo + hi) / 2 })

attribute [local semireducible] Rat.add Rat.sub Rat.mul Rat.inv

/-- C3 (failing input): on the zero-variance column `[5, 5]` with bin
width `1`, the loop emits no break, the forced boundary leaves the single
break list `[5]`, and `pd.cut` over one break has no interval at all: the
binned frame is empty, not the one interval `[5, 5]` the spec promises. -/
theorem create_binned_data_constant_empty :
    create_binned_data [some 5, some 5] 1 = [] := by decide

/-- One step of the loop: the output is empty or starts with `current`. -/
lemma binLoop_eq_nil_or_cons (maxVal width : ℚ) (fuel : Nat) (c : ℚ) :
    binLoop maxVal width fuel c = [] ∨
      ∃ t, binLoop maxVal width fuel c = c :: t ∧ c < maxVal := by
  cases fuel with
  | zero => exact Or.inl rfl
  | succ f =>
    by_cases h : c < maxVal
    · exact Or.inr ⟨binLoop maxVal width f (c + width), by simp [binLoop, h], h⟩
    · exact Or.inl (by simp [binLoop, h])

/-- The loop output, followed by the forced final boundary, is strictly
increasing: every emitted break is below `maxVal` and steps are positive. -/
lemma binLoop_append_chain (maxVal width : ℚ) (hw : 0 < width) :
    ∀ (fuel : Nat) (c : ℚ),
      List.Chain' (· < ·) (binLoop maxVal width fuel c ++ [maxVal])
  | 0, c => by simp [binLoop]
  | fuel + 1, c => by
    by_cases h : c < maxVal
    · have ih := binLoop_append_chain maxVal width hw fuel (c + width)
      simp only [binLoop, if_pos h, List.cons_append]
      rw [List.chain'_cons']
      refine ⟨?_, ih⟩
      intro y hy
      rcases binLoop_eq_nil_or_cons maxVal width fuel (c + width) with hnil | ⟨t, ht, _⟩
      · rw [hnil] at hy
        simp only [List.nil_append, List.head?_cons, Option.mem_def,
          Option.some.injEq] at hy
        rw [← hy]
        exact h
      · rw [ht] at hy
        simp only [List.cons_append, List.head?_cons, Option.mem_def,
          Option.some.injEq] at hy
        rw [← hy]
        linarith
    · simp [binLoop, h]

/-- For a nondegenerate range the break list starts with the minimum. -/
lemma computeBreaks_cons (minVal maxVal width : ℚ) (hlt : minVal < maxVal) :
    ∃ rest, binLoop maxVal width (binFuel minVal maxVal width) minVal ++ [maxVal]
      = minVal :: (rest ++ [maxVal]) := by
  rw [binFuel]
  exact ⟨binLoop maxVal width (⌈(maxVal - minVal) / width⌉).toNat (minVal + width),
    by simp [binLoop, hlt]⟩

/-- For a positive width and a nondegenerate range, the duplicate-dropping
pass of `computeBreaks` is the identity, the list has at least two breaks,
the first break is the minimum and the last is the maximum. -/
lemma computeBreaks_facts (minVal maxVal width : ℚ) (hw : 0 < width)
    (hlt : minVal < maxVal) :
    2 ≤ (computeBreaks minVal maxVal width).length ∧
      (computeBreaks minVal maxVal width).getD 0 0 = minVal ∧
      (computeBreaks minVal maxVal width).getD
        ((computeBreaks minVal maxVal width).length - 1) 0 = maxVal := by
  obtain ⟨rest, hbase⟩ := computeBreaks_cons minVal maxVal width hlt
  have hchain := binLoop_append_chain maxVal width hw (binFuel minVal maxVal width) minVal
  have hpw := List.chain'_iff_pairwise.mp hchain
  have hnodup : (binLoop maxVal width (binFuel minVal maxVal width) minVal
      ++ [maxVal]).Nodup := hpw.imp (fun h => ne_of_lt h)
  have hded : computeBreaks minVal maxVal width
      = binLoop maxVal width (binFuel minVal maxVal width) minVal ++ [maxVal] := by
    rw [computeBreaks]
    exact List.dedup_eq_self.mpr hnodup
  refine ⟨?_, ?_, ?_⟩
  · rw [hded, hbase]
    simp
  · rw [hded, hbase]
    rfl
  · rw [hded]
    have hlast : (binLoop maxVal width (binFuel minVal maxVal width) minVal
        ++ [maxVal]).getLast? = some maxVal :=
      List.getLast?_concat (binLoop maxVal width (binFuel minVal maxVal width) minVal)
    rw [List.getLast?_eq_getElem?] at hlast
    rw [List.getD_eq_getElem?_getD, hlast]
    rfl

/-- Where `pd.cut` puts a value lying between the first and the last break:
in the unique right-closed interval `(breaks[i], breaks[i+1]]` containing
it, except that a value equal to the first break lands in interval `0`
(`include_lowest=True`). -/
lemma cutIndex_of_between (breaks : List ℚ) (v : ℚ)
    (hlen : 2 ≤ breaks.length)
    (hlo : breaks.getD 0 0 ≤ v)
    (hhi : v ≤ breaks.getD (breaks.length - 1) 0) :
    ∃ i, cutIndex breaks v = some i ∧ i + 1 < breaks.length ∧
      ((breaks.getD i 0 < v ∧ v ≤ breaks.getD (i + 1) 0) ∨
        (i = 0 ∧ v = breaks.getD 0 0)) := by
  have hlen0 : 0 < breaks.length := by omega
  have h0 : breaks.getD 0 0 = breaks[0] := List.getD_eq_getElem breaks 0 hlen0
  by_cases hv0 : v = breaks[0]
  · have hh : breaks.head? = some v := by
      rw [List.head?_eq_getElem?, List.getElem?_eq_getElem hlen0, hv0]
    refine ⟨0, ?_, by omega, Or.inr ⟨rfl, by rw [h0, hv0]⟩⟩
    simp only [cutIndex, searchSorted, hh, if_pos]
    rw [if_neg]
    push_neg
    exact ⟨one_ne_zero, by omega⟩
  · have hlt0 : breaks[0] < v := by
      rw [h0] at hlo
      exact lt_of_le_of_ne hlo (fun h => hv0 h.symm)
    have hex : ∃ b ∈ breaks, (fun b => decide (v ≤ b)) b = true := by
      refine ⟨breaks[breaks.length - 1], List.getElem_mem _, ?_⟩
      simp only [decide_eq_true_eq]
      rw [List.getD_eq_getElem breaks 0
        (by omega : breaks.length - 1 < breaks.length)] at hhi
      exact hhi
    have hslt : breaks.findIdx (fun b => decide (v ≤ b)) < breaks.length :=
      List.findIdx_lt_length_of_exists hex
    have hvs : v ≤ breaks[breaks.findIdx (fun b => decide (v ≤ b))] := by
      have hp := @List.findIdx_getElem ℚ (fun b => decide (v ≤ b)) breaks hslt
      simpa using hp
    have hs0pos : 0 < breaks.findIdx (fun b => decide (v ≤ b)) := by
      rcases Nat.eq_zero_or_pos (breaks.findIdx (fun b => decide (v ≤ b))) with hz | hpos
      · exfalso
        have hvz : v ≤ breaks[0] := by
          have h' := hvs
          simp only [hz] at h'
          exact h'
        exact absurd hvz (not_le.mpr hlt0)
      · exact hpos
    have hmin : ¬ v ≤ breaks[breaks.findIdx (fun b => decide (v ≤ b)) - 1] := by
      have hfe := @List.not_of_lt_findIdx ℚ (fun b => decide (v ≤ b)) breaks
        (breaks.findIdx (fun b => decide (v ≤ b)) - 1) (by omega)
      simpa using hfe
    have hh : ¬ breaks.head? = some v := by
      rw [List.head?_eq_getElem?, List.getElem?_eq_getElem hlen0]
      intro hcontra
      exact hv0 (Option.some.inj hcontra).symm
    refine ⟨breaks.findIdx (fun b => decide (v ≤ b)) - 1, ?_, by omega, Or.inl ⟨?_, ?_⟩⟩
    · simp only [cutIndex, searchSorted, hh, if_false, if_neg]
      rw [if_neg]
      push_neg
      exact ⟨by omega, by omega⟩
    · rw [List.getD_eq_getElem breaks 0 (by omega :
        breaks.findIdx (fun b => decide (v ≤ b)) - 1 < breaks.length)]
      exact lt_of_not_le hmin
    · have hidx : breaks.findIdx (fun b => decide (v ≤ b)) - 1 + 1
          = breaks.findIdx (fun b => decide (v ≤ b)) := by omega
      rw [hidx, List.getD_eq_getElem breaks 0 hslt]
      exact hvs

lemma foldl_min_le_init (l : List ℚ) : ∀ a : ℚ, l.foldl min a ≤ a := by
  induction l with
  | nil => intro a; simp
  | cons x t ih =>
    intro a
    rw [List.foldl_cons]
    exact le_trans (ih (min a x)) (min_le_left a x)

lemma foldl_min_le_mem (l : List ℚ) : ∀ a v : ℚ, v ∈ l → l.foldl min a ≤ v := by
  induction l with
  | nil => intro a v hv; simp at hv
  | cons x t ih =>
    intro a v hv
    rw [List.foldl_cons]
    rcases List.mem_cons.mp hv with rfl | hvt
    · exact le_trans (foldl_min_le_init t (min a v)) (min_le_right a v)
    · exact ih (min a x) v hvt

/-- The column minimum is a lower bound for every value. -/
lemma listMin_le (l : List ℚ) (v : ℚ) (hv : v ∈ l) : listMin l ≤ v :=
  foldl_min_le_mem l (l.headD 0) v hv

lemma init_le_foldl_max (l : List ℚ) : ∀ a : ℚ, a ≤ l.foldl max a := by
  induction l with
  | nil => intro a; simp
  | cons x t ih =>
    intro a
    rw [List.foldl_cons]
    exact le_trans (le_max_left a x) (ih (max a x))

lemma mem_le_foldl_max (l : List ℚ) : ∀ a v : ℚ, v ∈ l → v ≤ l.foldl max a := by
  induction l with
  | nil => intro a v hv; simp at hv
  | cons x t ih =>
    intro a v hv
    rw [List.foldl_cons]
    rcases List.mem_cons.mp hv with rfl | hvt
    · exact le_trans (le_max_right a v) (init_le_foldl_max t (max a v))
    · exact ih (max a x) v hvt

/-- The column maximum is an upper bound for every value. -/
lemma le_listMax (l : List ℚ) (v : ℚ) (hv : v ∈ l) : v ≤ listMax l :=
  mem_le_foldl_max l (l.headD 0) v hv

/-- Shared coverage fact: with a positive width and a nondegenerate range,
every non-missing value of the column is assigned a bin by `pd.cut`, and
the assignment follows right-closed membership with the first-interval
exception. -/
lemma cut_covers (column : List Cell) (width : ℚ) (hw : 0 < width)
    (hlt : listMin (dropna column) < listMax (dropna column)) :
    ∀ v ∈ dropna column,
      ∃ i,
        cutIndex (computeBreaks (listMin (dropna column))
          (listMax (dropna column)) width) v = some i ∧
        i + 1 < (computeBreaks (listMin (dropna column))
          (listMax (dropna column)) width).length ∧
        (((computeBreaks (listMin (dropna column))
            (listMax (dropna column)) width).getD i 0 < v ∧
          v ≤ (computeBreaks (listMin (dropna column))
            (listMax (dropna column)) width).getD (i + 1) 0) ∨
          (i = 0 ∧ v = (computeBreaks (listMin (dropna column))
            (listMax (dropna column)) width).getD 0 0)) := by
  intro v hv
  obtain ⟨hlen, h0, hlast⟩ :=
    computeBreaks_facts (listMin (dropna column)) (listMax (dropna column)) width hw hlt
  apply cutIndex_of_between _ _ hlen
  · rw [h0]
    exact listMin_le _ _ hv
  · rw [hlast]
    exact le_listMax _ _ hv

/-- `binFuel` is no artificial truncation: granting the loop any extra fuel
beyond `binFuel` produces the same break list, so the fuelled model agrees
with the unbounded source loop whenever the width is positive. -/
lemma binLoop_fuel_stable (maxVal width : ℚ) (hw : 0 < width) :
    ∀ (fuel : Nat) (current : ℚ),
      (⌈(maxVal - current) / width⌉).toNat ≤ fuel →
      ∀ m : Nat, binLoop maxVal width fuel current
        = binLoop maxVal width (fuel + m) current := by
  intro fuel
  induction fuel with
  | zero =>
    intro current hc m
    have hle : maxVal ≤ current := by
      by_contra hlt
      push_neg at hlt
      have hpos : 0 < (maxVal - current) / width := div_pos (by linarith) hw
      have hcpos : 0 < ⌈(maxVal - current) / width⌉ := Int.ceil_pos.mpr hpos
      omega
    cases m with
    | zero => rfl
    | succ k =>
      have : ¬ current < maxVal := not_lt.mpr hle
      simp [binLoop, this]
  | succ f ih =>
    intro current hc m
    by_cases h : current < maxVal
    · have hstep : ⌈(maxVal - (current + width)) / width⌉
          = ⌈(maxVal - current) / width⌉ - 1 := by
        have hwne : width ≠ 0 := ne_of_gt hw
        have harg : (maxVal - (current + width)) / width
            = (maxVal - current) / width - 1 := by
          field_simp
          ring
        rw [harg, Int.ceil_sub_one]
      have hc' : (⌈(maxVal - (current + width)) / width⌉).toNat ≤ f := by
        have hpos : 0 < (maxVal - current) / width := div_pos (by linarith) hw
        have hcpos : 0 < ⌈(maxVal - current) / width⌉ := Int.ceil_pos.mpr hpos
        omega
      have hm := ih (current + width) hc' m
      have hrw : f + 1 + m = f + m + 1 := by omega
      rw [hrw]
      simp only [binLoop, if_pos h]
      rw [hm]
    · have hrw : f + 1 + m = f + m + 1 := by omega
      rw [hrw]
      simp [binLoop, h]

/-- The interval-membership rule exactly as the spec words it, for
comparison with the code's `cutIndex`: a value belongs to the first
interval with `lower ≤ value` and (`value < upper`, or it is the last
interval, where `value ≤ upper`). -/
def specAssignIndex (breaks : List ℚ) (v : ℚ) : Option Nat :=
  (List.range (breaks.length - 1)).findIdx? (fun i =>
    decide (breaks.getD i 0 ≤ v) &&
      (decide (v < breaks.getD (i + 1) 0) ||
        (decide (i = breaks.length - 2) && decide (v ≤ breaks.getD (i + 1) 0))))

/-- C4 counterexample: on the column `[0, 1, 2]` with bin width `1` the
breaks are `[0, 1, 2]`; the interior boundary value `1` is assigned by the
code to interval `0` (the right-closed `(0, 1]`), while the claim's
half-open `[lower, upper)` rule puts it in interval `1` (lower bound `1`). -/
theorem cut_membership_counterexample :
    cutIndex (computeBreaks 0 2 1) 1 = some 0 ∧
      specAssignIndex (computeBreaks 0 2 1) 1 = some 1 ∧
      cutIndex (computeBreaks 0 2 1) 1 ≠ specAssignIndex (computeBreaks 0 2 1) 1 := by
  refine ⟨by decide, by decide, by decide⟩

/-- C4 amended: for a positive bin width and a column whose minimum is
below its maximum, every non-missing value is assigned by the binning
engine to an interval of the computed breaks, and the intervals are
left-open right-closed `(lower, upper]` — a value equal to an interior
boundary belongs to the interval whose *upper* bound it equals — except the
first interval, which additionally contains the value equal to its lower
bound (the column minimum). -/
theorem cut_assigns_right_closed (column : List Cell) (width : ℚ)
    (hw : 0 < width)
    (hlt : listMin (dropna column) < listMax (dropna column)) :
    ∀ v ∈ dropna column,
      ∃ i,
        cutIndex (computeBreaks (listMin (dropna column))
          (listMax (dropna column)) width) v = some i ∧
        i + 1 < (computeBreaks (listMin (dropna column))
          (listMax (dropna column)) width).length ∧
        (((computeBreaks (listMin (dropna column))
            (listMax (dropna column)) width).getD i 0 < v ∧
          v ≤ (computeBreaks (listMin (dropna column))
            (listMax (dropna column)) width).getD (i + 1) 0) ∨
          (i = 0 ∧ v = (computeBreaks (listMin (dropna column))
            (listMax (dropna column)) width).getD 0 0)) :=
  cut_covers column width hw hlt

/-- Witness for C4 on the column `[0, 1, 2]`, width `1`, value `1`. -/
theorem cut_assigns_right_closed_witness :
    (0 : ℚ) < 1 ∧
    listMin (dropna [some 0, some 1, some 2]) <
      listMax (dropna [some 0, some 1, some 2]) ∧
    (∃ i,
      cutIndex (computeBreaks (listMin (dropna [some 0, some 1, some 2]))
        (listMax (dropna [some 0, some 1, some 2])) 1) 1 = some i ∧
      i + 1 < (computeBreaks (listMin (dropna [some 0, some 1, some 2]))
        (listMax (dropna [some 0, some 1, some 2])) 1).length ∧
      (((computeBreaks (listMin (dropna [some 0, some 1, some 2]))
          (listMax (dropna [some 0, some 1, some 2])) 1).getD i 0 < 1 ∧
        (1 : ℚ) ≤ (computeBreaks (listMin (dropna [some 0, some 1, some 2]))
          (listMax (dropna [some 0, some 1, some 2])) 1).getD (i + 1) 0) ∨
        (i = 0 ∧ (1 : ℚ) = (computeBreaks (listMin (dropna [some 0, some 1, some 2]))
          (listMax (dropna [some 0, some 1, some 2])) 1).getD 0 0))) :=
  ⟨by norm_num, by decide,
    cut_assigns_right_closed [some 0, some 1, some 2] 1 (by norm_num) (by decide)
      1 (by decide)⟩

lemma sum_map_add_nat (l : List Nat) (g h : Nat → Nat) :
    (l.map (fun i => g i + h i)).sum = (l.map g).sum + (l.map h).sum := by
  induction l with
  | nil => rfl
  | cons x t ih =>
    simp only [List.map_cons, List.sum_cons, ih]
    omega

lemma sum_indicator_range : ∀ n i0 : Nat, i0 < n →
    ((List.range n).map (fun i => if i0 = i then 1 else 0)).sum = 1
  | 0, i0, h => by omega
  | n + 1, i0, h => by
    rw [List.range_succ, List.map_append, List.sum_append]
    by_cases hc : i0 = n
    · subst hc
      have hz : ((List.range i0).map (fun i => if i0 = i then 1 else 0)).sum = 0 := by
        apply List.sum_eq_zero
        intro x hx
        obtain ⟨i, hi, rfl⟩ := List.mem_map.mp hx
        have hilt : i < i0 := List.mem_range.mp hi
        rw [if_neg (by omega)]
      simp [hz]
    · have h' : i0 < n := by omega
      rw [sum_indicator_range n i0 h']
      simp [hc]

/-- Counting once per bin index partitions a list each of whose elements is
assigned some index below `n`. -/
lemma countP_range_sum (f : ℚ → Option Nat) (n : Nat) :
    ∀ l : List ℚ, (∀ v ∈ l, ∃ i, i < n ∧ f v = some i) →
      ((List.range n).map (fun i => l.countP (fun v => f v == some i))).sum = l.length
  | [], _ => by simp
  | x :: t, h => by
    have ih := countP_range_sum f n t (fun v hv => h v (List.mem_cons_of_mem x hv))
    obtain ⟨i0, hi0, hfx⟩ := h x (List.mem_cons_self x t)
    have hsplit : ∀ i : Nat, (x :: t).countP (fun v => f v == some i) =
        t.countP (fun v => f v == some i) + (if i0 = i then 1 else 0) := by
      intro i
      rw [List.countP_cons]
      congr 1
      rw [hfx]
      by_cases hc : i0 = i
      · subst hc
        simp
      · simp [hc]
    have hmap : (List.range n).map (fun i => (x :: t).countP (fun v => f v == some i))
        = (List.range n).map (fun i =>
            t.countP (fun v => f v == some i) + (if i0 = i then 1 else 0)) :=
      List.map_congr_left (fun i _ => hsplit i)
    rw [hmap, sum_map_add_nat, ih, sum_indicator_range n i0 hi0]
    simp

/-- The per-row counts of the binned frame, as counts of the cut indices. -/
lemma create_binned_data_count (column : List Cell) (width : ℚ) :
    (create_binned_data column width).map (fun r => r.count)
      = (List.range
          ((computeBreaks (listMin (dropna column))
              (listMax (dropna column)) width).zip
            (computeBreaks (listMin (dropna column))
              (listMax (dropna column)) width).tail).length).map
          (fun i => (dropna column).countP
            (fun v => cutIndex (computeBreaks (listMin (dropna column))
              (listMax (dropna column)) width) v == some i)) := by
  simp only [create_binned_data, List.map_map]
  rfl

/-- C5 amended: for a positive bin width and a column with two distinct
non-missing values (minimum below maximum), the per-interval counts of the
binned frame sum to the number of non-missing values. -/
theorem binned_counts_sum (column : List Cell) (width : ℚ)
    (hw : 0 < width)
    (hlt : listMin (dropna column) < listMax (dropna column)) :
    ((create_binned_data column width).map (fun r => r.count)).sum
      = (dropna column).length := by
  rw [create_binned_data_count]
  apply countP_range_sum
  intro v hv
  obtain ⟨i, hci, hilen, _⟩ := cut_covers column width hw hlt v hv
  refine ⟨i, ?_, hci⟩
  have hzlen : (((computeBreaks (listMin (dropna column))
        (listMax (dropna column)) width).zip
      (computeBreaks (listMin (dropna column))
        (listMax (dropna column)) width).tail).length)
      = (computeBreaks (listMin (dropna column))
        (listMax (dropna column)) width).length - 1 := by
    rw [List.length_zip, List.length_tail]
    omega
  omega

/-- C5 counterexample: on the zero-variance column `[5, 5]` (two non-missing
values) with bin width `1`, the binned frame is empty and its counts sum to
`0`, not `2`: the claim fails without the `min < max` proviso. -/
theorem binned_counts_sum_counterexample :
    ((create_binned_data [some 5, some 5] 1).map (fun r => r.count)).sum
      ≠ (dropna [some 5, some 5]).length := by decide

/-- Witness for C5 on the column `[0, 1, 2]` with width `1`. -/
theorem binned_counts_sum_witness :
    (0 : ℚ) < 1 ∧
    listMin (dropna [some 0, some 1, some 2]) <
      listMax (dropna [some 0, some 1, some 2]) ∧
    ((create_binned_data [some 0, some 1, some 2] 1).map (fun r => r.count)).sum
      = (dropna [some 0, some 1, some 2]).length :=
  ⟨by norm_num, by decide, binned_counts_sum _ _ (by norm_num) (by decide)⟩

/-! ## Chart specs and color theming (`chart_utils.py`) -/

/-- The renderer-agnostic figure a `px.*` constructor returns: mark kind,
the data series, the title, and the styling that `update_traces` /
`update_xaxes` / `update_yaxes` later touch.  Data plotted against a
category axis is a list of rendered labels (`xStrData`); numeric-axis data
is a list of rationals. -/
structure Figure where
  mark : String
  xStrData : List String := []
  xNumData : List ℚ := []
  yData : List ℚ := []
  title : String := ""
  markerColor : Option String := none
  markerColorscale : Option String := none
  colorSeq : Option (List String) := none
  colorBy : Option String := none
  xAxisTitle : Option String := none
  yAxisTitle : Option String := none
  xTickAngle : Option Int := none
  nbins : Option Nat := none
deriving Repr, DecidableEq

/-- `px.bar(frame, x=…, y=…, title=…)` on a category x-axis. -/
def pxBar (x : List String) (y : List ℚ) (title : String) : Figure :=
  { mark := "bar", xStrData := x, yData := y, title := title }

/-- `px.bar(frame, x=…, y=…, color=…, title=…, color_discrete_sequence=…)`. -/
def pxBarColored (x : List String) (y : List ℚ) (colorBy : String)
    (title : String) (seq : Option (List String)) : Figure :=
  { mark := "bar", xStrData := x, yData := y, title := title,
    colorBy := some colorBy, colorSeq := seq }

/-- `px.line(frame, x=…, y=…, title=…)` on a category x-axis. -/
def pxLine (x : List String) (y : List ℚ) (title : String) : Figure :=
  { mark := "line", xStrData := x, yData := y, title := title }

/-- `px.pie(frame, values=…, names=…, title=…[, color_discrete_sequence])`. -/
def pxPie (names : List String) (values : List ℚ) (title : String)
    (seq : Option (List String)) : Figure :=
  { mark := "pie", xStrData := names, yData := values, title := title,
    colorSeq := seq }

/-- `px.box(frame, y=…, title=…)`. -/
def pxBox (y : List ℚ) (title : String) : Figure :=
  { mark := "box", yData := y, title := title }

/-- `px.histogram(frame, x=…, nbins=…, title=…)`. -/
def pxHistogram (x : List ℚ) (numBins : Nat) (title : String) : Figure :=
  { mark := "histogram", xNumData := x, title := title, nbins := some numBins }

/-- `px.scatter(frame, x=…, y=…, title=…[, color_discrete_sequence])`. -/
def pxScatter (x : List String) (y : List ℚ) (title : String)
    (seq : Option (List String)) : Figure :=
  { mark := "scatter", xStrData := x, yData := y, title := title,
    colorSeq := seq }

/-- `fig.update_traces(marker_color=c)`. -/
def update_traces_marker_color (c : String) (fig : Figure) : Figure :=
  { fig with markerColor := some c }

/-- `fig.update_traces(marker=dict(colorscale=c))`. -/
def update_traces_colorscale (c : String) (fig : Figure) : Figure :=
  { fig with markerColorscale := some c }

/-- `fig.update_xaxes(title=t, tickangle=a)`. -/
def update_xaxes (t : String) (a : Int) (fig : Figure) : Figure :=
  { fig with xAxisTitle := some t, xTickAngle := some a }

/-- `fig.update_yaxes(title=t)`. -/
def update_yaxes (t : String) (fig : Figure) : Figure :=
  { fig with yAxisTitle := some t }

/-- Model of `apply_color_theme(fig, color_palette, chart_type)`.  The
plotly palette tables are external data: `seqList` stands for
`getattr(px.colors.sequential, name)` and `qualList` for
`px.colors.qualitative.<name>`; the indexing `[i]` is `getD i ""`. -/
def apply_color_theme (seqList qualList : String → List String)
    (fig : Figure) (color_palette chart_type : String) : Figure :=
  if color_palette = "plotly" then fig
  else if color_palette ∈ ["viridis", "plasma", "inferno", "magma"] then
    if chart_type = "single" then
      update_traces_marker_color ((seqList color_palette.capitalize).getD 3 "") fig
    else
      update_traces_colorscale color_palette fig
  else if color_palette ∈ ["blues", "reds", "greens", "purples", "oranges"] then
    if chart_type = "single" then
      update_traces_marker_color ((seqList color_palette.capitalize).getD 5 "") fig
    else
      update_traces_colorscale color_palette fig
  else if color_palette = "rainbow" then
    update_traces_marker_color ((qualList "Set3").getD 0 "") fig
  else if color_palette = "turbo" then
    update_traces_marker_color ((seqList "Turbo").getD 5 "") fig
  else if color_palette = "pastel" then
    update_traces_marker_color ((qualList "Pastel1").getD 0 "") fig
  else if color_palette = "bold" then
    update_traces_marker_color ((qualList "Bold").getD 0 "") fig
  else if color_palette = "vivid" then
    update_traces_marker_color ((qualList "Vivid").getD 0 "") fig
  else if color_palette = "safe" then
    update_traces_marker_color ((qualList "Safe").getD 0 "") fig
  else fig

/-- The palette names `apply_color_theme` acts on; every other name falls
through every branch. -/
def recognizedPalettes : List String :=
  ["viridis", "plasma", "inferno", "magma", "blues", "reds", "greens",
   "purples", "oranges", "rainbow", "turbo", "pastel", "bold", "vivid", "safe"]

/-- Shared frame fact: `apply_color_theme` never touches the data series,
the title, or the axis annotations — only the marker styling fields. -/
lemma apply_color_theme_frame (seqList qualList : String → List String)
    (fig : Figure) (color_palette chart_type : String) :
    (apply_color_theme seqList qualList fig color_palette chart_type).mark = fig.mark ∧
    (apply_color_theme seqList qualList fig color_palette chart_type).xStrData = fig.xStrData ∧
    (apply_color_theme seqList qualList fig color_palette chart_type).xNumData = fig.xNumData ∧
    (apply_color_theme seqList qualList fig color_palette chart_type).yData = fig.yData ∧
    (apply_color_theme seqList qualList fig color_palette chart_type).title = fig.title ∧
    (apply_color_theme seqList qualList fig color_palette chart_type).colorSeq = fig.colorSeq ∧
    (apply_color_theme seqList qualList fig color_palette chart_type).colorBy = fig.colorBy ∧
    (apply_color_theme seqList qualList fig color_palette chart_type).xAxisTitle = fig.xAxisTitle ∧
    (apply_color_theme seqList qualList fig color_palette chart_type).yAxisTitle = fig.yAxisTitle ∧
    (apply_color_theme seqList qualList fig color_palette chart_type).xTickAngle = fig.xTickAngle ∧
    (apply_color_theme seqList qualList fig color_palette chart_type).nbins = fig.nbins := by
  unfold apply_color_theme update_traces_marker_color update_traces_colorscale
  split_ifs <;> simp

/-- Unknown palette names (and the `"plotly"` passthrough) leave the figure
entirely unchanged. -/
lemma apply_color_theme_id (seqList qualList : String → List String)
    (fig : Figure) (color_palette chart_type : String)
    (h : color_palette = "plotly" ∨ color_palette ∉ recognizedPalettes) :
    apply_color_theme seqList qualList fig color_palette chart_type = fig := by
  rcases h with h | h
  · simp [apply_color_theme, h]
  · simp only [recognizedPalettes, List.mem_cons, List.not_mem_nil, or_false] at h
    push_neg at h
    obtain ⟨h1, h2, h3, h4, h5, h6, h7, h8, h9, h10, h11, h12, h13, h14, h15⟩ := h
    unfold apply_color_theme
    split_ifs <;> simp_all

/-- C10: for every figure and palette name, `apply_color_theme` leaves the
data series and the title unchanged (it only touches marker styling), and
for the `"plotly"` passthrough or any unrecognized name it returns the
figure entirely unchanged. -/
theorem apply_color_theme_preserves_data (seqList qualList : String → List String)
    (fig : Figure) (color_palette chart_type : String) :
    (apply_color_theme seqList qualList fig color_palette chart_type).xStrData = fig.xStrData ∧
    (apply_color_theme seqList qualList fig color_palette chart_type).xNumData = fig.xNumData ∧
    (apply_color_theme seqList qualList fig color_palette chart_type).yData = fig.yData ∧
    (apply_color_theme seqList qualList fig color_palette chart_type).title = fig.title ∧
    ((color_palette = "plotly" ∨ color_palette ∉ recognizedPalettes) →
      apply_color_theme seqList qualList fig color_palette chart_type = fig) := by
  obtain ⟨-, hx, hn, hy, ht, -⟩ :=
    apply_color_theme_frame seqList qualList fig color_palette chart_type
  exact ⟨hx, hn, hy, ht,
    fun h => apply_color_theme_id seqList qualList fig color_palette chart_type h⟩

/-- Witness for C10 on a concrete figure, the default palette and an
unknown palette name. -/
theorem apply_color_theme_preserves_data_witness :
    ((apply_color_theme (fun _ => []) (fun _ => [])
        { mark := "bar", title := "t" } "plotly" "single").xStrData
      = (Figure.mk "bar" [] [] [] "t" none none none none none none none none).xStrData ∧
    (apply_color_theme (fun _ => []) (fun _ => [])
        { mark := "bar", title := "t" } "plotly" "single").xNumData
      = (Figure.mk "bar" [] [] [] "t" none none none none none none none none).xNumData ∧
    (apply_color_theme (fun _ => []) (fun _ => [])
        { mark := "bar", title := "t" } "plotly" "single").yData
      = (Figure.mk "bar" [] [] [] "t" none none none none none none none none).yData ∧
    (apply_color_theme (fun _ => []) (fun _ => [])
        { mark := "bar", title := "t" } "plotly" "single").title
      = (Figure.mk "bar" [] [] [] "t" none none none none none none none none).title ∧
    (("plotly" = "plotly" ∨ "plotly" ∉ recognizedPalettes) →
      apply_color_theme (fun _ => []) (fun _ => [])
        { mark := "bar", title := "t" } "plotly" "single"
      = { mark := "bar", title := "t" })) ∧
    ((apply_color_theme (fun _ => []) (fun _ => [])
        { mark := "line", title := "u" } "no-such-palette" "single")
      = { mark := "line", title := "u" }) :=
  ⟨apply_color_theme_preserves_data (fun _ => []) (fun _ => [])
      { mark := "bar", title := "t" } "plotly" "single",
    (apply_color_theme_preserves_data (fun _ => []) (fun _ => [])
      { mark := "line", title := "u" } "no-such-palette" "single").2.2.2.2
      (Or.inr (by decide))⟩

/-- A scalar of a dynamically typed dataframe column: numeric or textual. -/
inductive Val where
  | num (q : ℚ)
  | str (s : String)
deriving Repr, DecidableEq

/-- The numeric reading of a cell, when it has one. -/
def Val.numQ : Val → Option ℚ
  | num q => some q
  | str _ => none

/-- The rendered label of a cell (how a group key prints). -/
def Val.render : Val → String
  | num q => toString q
  | str s => s

/-- `series.value_counts()`: one row per distinct label with its count,
sorted by count descending. -/
def value_counts (values : List String) : List (String × Nat) :=
  (values.dedup.map (fun k => (k, values.count k))).mergeSort
    (fun a b => decide (b.2 ≤ a.2))

/-- `column_types.get(name, "Unknown")`. -/
def lookupType (column_types : List (String × String)) (k : String) : String :=
  ((column_types.find? (fun p => p.1 == k)).map Prod.snd).getD "Unknown"

/-- The group keys of `df.groupby(x_axis)`: distinct x values, sorted
ascending (pandas `groupby` sorts keys). -/
def groupKeys (rows : List (String × Val)) : List String :=
  ((rows.map Prod.fst).dedup).mergeSort (fun a b => decide (a ≤ b))

/-- `df.groupby(x_axis)[y_axis].mean()` at one group key: the mean of the
numeric y values whose row carries that key. -/
def groupMean (rows : List (String × Val)) (g : String) : ℚ :=
  let ys := rows.filterMap (fun p => if p.1 = g then p.2.numQ else none)
  ys.sum / (ys.length : ℚ)

/-- `df.groupby([x_axis, y_axis]).size()`: one row per distinct
(x, y-label) pair with its count, sorted by key. -/
def pairCounts (rows : List (String × Val)) : List ((String × String) × Nat) :=
  let pairs := rows.map (fun p => (p.1, p.2.render))
  (pairs.dedup.map (fun k => (k, pairs.count k))).mergeSort
    (fun a b => decide (a.1.1 < b.1.1) ||
      (decide (a.1.1 = b.1.1) && decide (a.1.2 ≤ b.1.2)))

/-- The discrete color sequence the pie branch picks per palette name
(chart_utils.py lines 112-127); note `rainbow` maps to `Set3` here. -/
def pieColorSeq (seqList qualList : String → List String)
    (palette : String) : List String :=
  if palette ∈ ["viridis", "plasma", "inferno", "magma", "blues", "reds",
      "greens", "purples", "oranges"] then seqList palette.capitalize
  else if palette = "turbo" then seqList "Turbo"
  else if palette = "rainbow" then qualList "Set3"
  else if palette = "pastel" then qualList "Pastel1"
  else if palette = "bold" then qualList "Bold"
  else if palette = "vivid" then qualList "Vivid"
  else if palette = "safe" then qualList "Safe"
  else qualList "Set1"

/-- The discrete color sequence the categorical-vs-categorical bar branch
picks (chart_utils.py lines 206-219); it has no `rainbow` case, so that
name falls to `Set1`. -/
def pairBarColorSeq (seqList qualList : String → List String)
    (palette : String) : List String :=
  if palette ∈ ["viridis", "plasma", "inferno", "magma", "blues", "reds",
      "greens", "purples", "oranges"] then seqList palette.capitalize
  else if palette = "turbo" then seqList "Turbo"
  else if palette = "pastel" then qualList "Pastel1"
  else if palette = "bold" then qualList "Bold"
  else if palette = "vivid" then qualList "Vivid"
  else if palette = "safe" then qualList "Safe"
  else qualList "Set1"

/-- Model of `create_single_column_chart(df, col, col_type, chart_type,
color_palette, bin_width)`.  The dynamically typed column `df[col]` is
carried in both of its views: `colStr` is its rendered-label form, read by
the frequency branches, and `colNum` its numeric form, read by the binning
branches; `col` is the column's name.  A chart type outside the five
handled ones falls off the end of the Python if-chain and yields `None`. -/
def create_single_column_chart (seqList qualList : String → List String)
    (colStr : List String) (colNum : List Cell) (col : String)
    (col_type chart_type color_palette : String) (bin_width : ℚ) :
    Option Figure :=
  if chart_type = "Bar Chart" then
    if col_type = "Categorical" then
      let freq := value_counts colStr
      some (apply_color_theme seqList qualList
        (pxBar (freq.map Prod.fst) (freq.map (fun p => (p.2 : ℚ)))
          ("Bar Chart of " ++ col)) color_palette "single")
    else
      let binned := create_binned_data colNum bin_width
      some (apply_color_theme seqList qualList
        (update_xaxes (col ++ " (Range)") 45
          (pxBar (binned.map (fun r => r.label))
            (binned.map (fun r => (r.count : ℚ)))
            ("Bar Chart of " ++ col ++ " (Bin width: "
              ++ toString bin_width ++ ")")))
        color_palette "single")
  else if chart_type = "Line Chart" then
    if col_type = "Categorical" then
      let freq := value_counts colStr
      some (apply_color_theme seqList qualList
        (pxLine (freq.map Prod.fst) (freq.map (fun p => (p.2 : ℚ)))
          ("Line Chart of " ++ col)) color_palette "single")
    else
      let binned := create_binned_data colNum bin_width
      some (apply_color_theme seqList qualList
        (update_xaxes (col ++ " (Range)") 45
          (pxLine (binned.map (fun r => r.label))
            (binned.map (fun r => (r.count : ℚ)))
            ("Line Chart of " ++ col ++ " (Bin width: "
              ++ toString bin_width ++ ")")))
        color_palette "single")
  else if chart_type = "Pie Chart" then
    if col_type = "Categorical" then
      let freq := value_counts colStr
      if color_palette ≠ "plotly" then
        some (pxPie (freq.map Prod.fst) (freq.map (fun p => (p.2 : ℚ)))
          ("Pie Chart of " ++ col)
          (some (pieColorSeq seqList qualList color_palette)))
      else
        some (pxPie (freq.map Prod.fst) (freq.map (fun p => (p.2 : ℚ)))
          ("Pie Chart of " ++ col) none)
    else
      none
  else if chart_type = "Box Plot" then
    if col_type = "Categorical" then
      some (apply_color_theme seqList qualList
        (pxBox (dropna colNum) ("Box Plot of " ++ col)) color_palette "single")
    else
      let binned := create_binned_data colNum bin_width
      let expanded := binned.foldl
        (fun acc r => acc ++ List.replicate r.count r.midpoint) []
      some (apply_color_theme seqList qualList
        (update_yaxes (col ++ " (Binned)")
          (pxBox expanded
            ("Box Plot of " ++ col ++ " (Bin width: "
              ++ toString bin_width ++ ")")))
        color_palette "single")
  else if chart_type = "Histogram" then
    let minVal := listMin (dropna colNum)
    let maxVal := listMax (dropna colNum)
    let numBins := max 1 ((maxVal - minVal) / bin_width).floor.toNat
    some (apply_color_theme seqList qualList
      (pxHistogram (dropna colNum) numBins
        ("Histogram of " ++ col ++ " (Bin width: " ++ toString bin_width ++ ")"))
      color_palette "single")
  else
    none

/-- Model of `create_two_column_chart(df, x_axis, y_axis, chart_type,
color_palette, column_types)`.  A row pairs the rendered x value with the
y cell; `x_axis`/`y_axis` are the column names, and the branch dispatch
reads only `column_types` (a dict defaulting to `"Unknown"`), exactly as
the source compares type-tag strings. -/
def create_two_column_chart (seqList qualList : String → List String)
    (rows : List (String × Val)) (x_axis y_axis chart_type color_palette : String)
    (column_types : List (String × String)) : Option Figure :=
  if chart_type = "Scatter Plot" then
    if color_palette ≠ "plotly" then
      if color_palette ∈ ["viridis", "plasma", "inferno", "magma", "blues",
          "reds", "greens", "purples", "oranges"] then
        some (pxScatter (rows.map Prod.fst) (rows.filterMap (fun p => p.2.numQ))
          (chart_type ++ ": " ++ y_axis ++ " vs " ++ x_axis)
          (some (seqList color_palette.capitalize)))
      else if color_palette = "turbo" then
        some (pxScatter (rows.map Prod.fst) (rows.filterMap (fun p => p.2.numQ))
          (chart_type ++ ": " ++ y_axis ++ " vs " ++ x_axis)
          (some (seqList "Turbo")))
      else if color_palette ∈ ["pastel", "bold", "vivid", "safe"] then
        some (pxScatter (rows.map Prod.fst) (rows.filterMap (fun p => p.2.numQ))
          (chart_type ++ ": " ++ y_axis ++ " vs " ++ x_axis)
          (some (pairBarColorSeq seqList qualList color_palette)))
      else
        some (pxScatter (rows.map Prod.fst) (rows.filterMap (fun p => p.2.numQ))
          (chart_type ++ ": " ++ y_axis ++ " vs " ++ x_axis) none)
    else
      some (pxScatter (rows.map Prod.fst) (rows.filterMap (fun p => p.2.numQ))
        (chart_type ++ ": " ++ y_axis ++ " vs " ++ x_axis) none)
  else if chart_type = "Bar Chart" then
    if lookupType column_types x_axis = "Categorical" ∧
        (lookupType column_types y_axis = "Numeric (Continuous)" ∨
          lookupType column_types y_axis = "Numeric (Discrete)") then
      some (pxBar (groupKeys rows) ((groupKeys rows).map (groupMean rows))
        ("Average " ++ y_axis ++ " by " ++ x_axis))
    else if lookupType column_types x_axis = "Categorical" ∧
        lookupType column_types y_axis = "Categorical" then
      if color_palette ≠ "plotly" then
        some (pxBarColored ((pairCounts rows).map (fun p => p.1.1))
          ((pairCounts rows).map (fun p => (p.2 : ℚ))) y_axis
          ("Count by " ++ x_axis ++ " and " ++ y_axis)
          (some (pairBarColorSeq seqList qualList color_palette)))
      else
        some (pxBarColored ((pairCounts rows).map (fun p => p.1.1))
          ((pairCounts rows).map (fun p => (p.2 : ℚ))) y_axis
          ("Count by " ++ x_axis ++ " and " ++ y_axis) none)
    else
      some (apply_color_theme seqList qualList
        (pxBar (rows.map Prod.fst) (rows.filterMap (fun p => p.2.numQ))
          (chart_type ++ ": " ++ y_axis ++ " vs " ++ x_axis))
        color_palette "single")
  else if chart_type = "Line Chart" then
    if lookupType column_types x_axis = "Categorical" ∧
        (lookupType column_types y_axis = "Numeric (Continuous)" ∨
          lookupType column_types y_axis = "Numeric (Discrete)") then
      some (apply_color_theme seqList qualList
        (pxLine (groupKeys rows) ((groupKeys rows).map (groupMean rows))
          ("Average " ++ y_axis ++ " by " ++ x_axis))
        color_palette "single")
    else
      some (apply_color_theme seqList qualList
        (pxLine (rows.map Prod.fst) (rows.filterMap (fun p => p.2.numQ))
          (chart_type ++ ": " ++ y_axis ++ " vs " ++ x_axis))
        color_palette "single")
  else
    none

/-- C6: a Pie chart request on a column classified numeric (discrete or
continuous) is rejected with the distinguishable value `None` — the builder
returns, it does not throw, and it never yields a chart spec. -/
theorem pie_on_numeric_rejected (seqList qualList : String → List String)
    (colStr : List String) (colNum : List Cell) (col : String)
    (col_type color_palette : String) (bin_width : ℚ)
    (hty : col_type = "Numeric (Discrete)" ∨ col_type = "Numeric (Continuous)") :
    create_single_column_chart seqList qualList colStr colNum col col_type
      "Pie Chart" color_palette bin_width = none := by
  rcases hty with h | h <;> subst h <;> rfl

/-- Witness for C6 on a concrete numeric column. -/
theorem pie_on_numeric_rejected_witness :
    ("Numeric (Discrete)" = "Numeric (Discrete)" ∨
      "Numeric (Discrete)" = "Numeric (Continuous)") ∧
    create_single_column_chart (fun _ => []) (fun _ => []) []
      [some 1, some 2] "age" "Numeric (Discrete)" "Pie Chart" "plotly" 1 = none :=
  ⟨Or.inl rfl,
    pie_on_numeric_rejected (fun _ => []) (fun _ => []) [] [some 1, some 2]
      "age" "Numeric (Discrete)" "plotly" 1 (Or.inl rfl)⟩

/-- C7: a two-column Bar or Line request with a categorical x column and a
numeric y column draws exactly one point per distinct x value, whose height
is the mean of the y values in that x group. -/
theorem two_column_mean_height (seqList qualList : String → List String)
    (rows : List (String × Val)) (x_axis y_axis chart_type color_palette : String)
    (column_types : List (String × String))
    (hchart : chart_type = "Bar Chart" ∨ chart_type = "Line Chart")
    (hx : lookupType column_types x_axis = "Categorical")
    (hy : lookupType column_types y_axis = "Numeric (Continuous)" ∨
      lookupType column_types y_axis = "Numeric (Discrete)") :
    ∃ fig, create_two_column_chart seqList qualList rows x_axis y_axis
        chart_type color_palette column_types = some fig ∧
      fig.xStrData.Nodup ∧
      (∀ g, g ∈ fig.xStrData ↔ ∃ v, (g, v) ∈ rows) ∧
      fig.yData = fig.xStrData.map (groupMean rows) := by
  have hkeys_perm : (groupKeys rows).Perm ((rows.map Prod.fst).dedup) :=
    List.mergeSort_perm _ _
  have hnodup : (groupKeys rows).Nodup :=
    hkeys_perm.nodup_iff.mpr (List.nodup_dedup _)
  have hmem : ∀ g, g ∈ groupKeys rows ↔ ∃ v, (g, v) ∈ rows := by
    intro g
    rw [hkeys_perm.mem_iff, List.mem_dedup, List.mem_map]
    constructor
    · rintro ⟨⟨a, b⟩, hp, rfl⟩
      exact ⟨b, hp⟩
    · rintro ⟨v, hv⟩
      exact ⟨(g, v), hv, rfl⟩
  rcases hchart with h | h <;> subst h
  · have hbar : create_two_column_chart seqList qualList rows x_axis y_axis
        "Bar Chart" color_palette column_types
        = some (pxBar (groupKeys rows) ((groupKeys rows).map (groupMean rows))
            ("Average " ++ y_axis ++ " by " ++ x_axis)) := by
      unfold create_two_column_chart
      rw [if_neg (by decide : ¬ ("Bar Chart" = "Scatter Plot")), if_pos rfl,
        if_pos ⟨hx, hy⟩]
    exact ⟨_, hbar, hnodup, hmem, rfl⟩
  · have hline : create_two_column_chart seqList qualList rows x_axis y_axis
        "Line Chart" color_palette column_types
        = some (apply_color_theme seqList qualList
            (pxLine (groupKeys rows) ((groupKeys rows).map (groupMean rows))
              ("Average " ++ y_axis ++ " by " ++ x_axis)) color_palette "single") := by
      unfold create_two_column_chart
      rw [if_neg (by decide : ¬ ("Line Chart" = "Scatter Plot")),
        if_neg (by decide : ¬ ("Line Chart" = "Bar Chart")), if_pos rfl,
        if_pos ⟨hx, hy⟩]
    obtain ⟨-, hxs, -, hys, -⟩ := apply_color_theme_frame seqList qualList
      (pxLine (groupKeys rows) ((groupKeys rows).map (groupMean rows))
        ("Average " ++ y_axis ++ " by " ++ x_axis)) color_palette "single"
    refine ⟨_, hline, ?_, ?_, ?_⟩
    · rw [hxs]
      exact hnodup
    · intro g
      rw [hxs]
      exact hmem g
    · rw [hys, hxs]
      rfl

/-- Witness for C7 on a concrete one-group bar request. -/
theorem two_column_mean_height_witness :
    ("Bar Chart" = "Bar Chart" ∨ "Bar Chart" = "Line Chart") ∧
    lookupType [("x", "Categorical"), ("y", "Numeric (Discrete)")] "x"
      = "Categorical" ∧
    (lookupType [("x", "Categorical"), ("y", "Numeric (Discrete)")] "y"
        = "Numeric (Continuous)" ∨
      lookupType [("x", "Categorical"), ("y", "Numeric (Discrete)")] "y"
        = "Numeric (Discrete)") ∧
    (∃ fig, create_two_column_chart (fun _ => []) (fun _ => [])
        [("a", Val.num 2)] "x" "y" "Bar Chart" "plotly"
        [("x", "Categorical"), ("y", "Numeric (Discrete)")] = some fig ∧
      fig.xStrData.Nodup ∧
      (∀ g, g ∈ fig.xStrData ↔ ∃ v, (g, v) ∈ [("a", Val.num 2)]) ∧
      fig.yData = fig.xStrData.map (groupMean [("a", Val.num 2)])) :=
  ⟨Or.inl rfl, by decide, Or.inr (by decide),
    two_column_mean_height (fun _ => []) (fun _ => []) [("a", Val.num 2)]
      "x" "y" "Bar Chart" "plotly"
      [("x", "Categorical"), ("y", "Numeric (Discrete)")]
      (Or.inl rfl) (by decide) (Or.inr (by decide))⟩

/-- `pat` occurs as a contiguous substring of `s`. -/
def strContains (s pat : String) : Prop :=
  pat.toList <:+: s.toList

instance (s pat : String) : Decidable (strContains s pat) :=
  List.decidableInfix pat.toList s.toList

lemma toList_append (a b : String) : (a ++ b).toList = a.toList ++ b.toList :=
  String.data_append a b

lemma strContains_self_append (b c : String) : strContains (b ++ c) b :=
  ⟨[], c.toList, by simp [toList_append]⟩

lemma strContains_append_self (a b : String) : strContains (a ++ b) b :=
  ⟨a.toList, [], by simp [toList_append]⟩

lemma strContains_prefix_lit (pre col pat suf : String) (h : pre = pat ++ suf) :
    strContains (pre ++ col) pat := by
  subst h
  exact ⟨[], suf.toList ++ col.toList, by simp [toList_append]⟩

lemma strContains_extend_right (s pat c : String) (h : strContains s pat) :
    strContains (s ++ c) pat := by
  obtain ⟨u, v, huv⟩ := h
  exact ⟨u, v ++ c.toList, by rw [toList_append, ← huv]; simp⟩

lemma strContains_extend_left (s pat c : String) (h : strContains s pat) :
    strContains (c ++ s) pat := by
  obtain ⟨u, v, huv⟩ := h
  exact ⟨c.toList ++ u, v, by rw [toList_append, ← huv]; simp⟩

/-- Titles of the shape `pre ++ col ++ m ++ w ++ s` contain the column. -/
lemma strContains_title5 (pre col m w s : String) :
    strContains (pre ++ col ++ m ++ w ++ s) col :=
  strContains_extend_right _ _ _ (strContains_extend_right _ _ _
    (strContains_extend_right _ _ _ (strContains_append_self pre col)))

/-- Titles of the shape `pre ++ col ++ m ++ w ++ s` contain the chart kind
when `pre` starts with it. -/
lemma strContains_title5_kind (pre col m w s pat suf : String)
    (h : pre = pat ++ suf) :
    strContains (pre ++ col ++ m ++ w ++ s) pat :=
  strContains_extend_right _ _ _ (strContains_extend_right _ _ _
    (strContains_extend_right _ _ _ (strContains_prefix_lit pre col pat suf h)))

/-- The title field is never touched by the color theming. -/
lemma apply_color_theme_title (seqList qualList : String → List String)
    (fig : Figure) (color_palette chart_type : String) :
    (apply_color_theme seqList qualList fig color_palette chart_type).title
      = fig.title :=
  (apply_color_theme_frame seqList qualList fig color_palette chart_type).2.2.2.2.1

/-- The two-column requests the builder aggregates before plotting: mean
aggregation for Bar/Line with categorical x and numeric y, pair counting
for Bar with categorical x and y. -/
def isAggregatedRequest (x_type y_type chart_type : String) : Bool :=
  ((chart_type == "Bar Chart" || chart_type == "Line Chart") &&
    x_type == "Categorical" &&
    (y_type == "Numeric (Continuous)" || y_type == "Numeric (Discrete)")) ||
  (chart_type == "Bar Chart" && x_type == "Categorical" &&
    y_type == "Categorical")

/-- Every single-column chart title embeds both the column name and the
requested chart kind. -/
lemma single_column_title_parts (seqList qualList : String → List String)
    (colStr : List String) (colNum : List Cell)
    (col col_type chart_type color_palette : String) (bin_width : ℚ)
    (fig : Figure)
    (hfig : create_single_column_chart seqList qualList colStr colNum col
      col_type chart_type color_palette bin_width = some fig) :
    strContains fig.title col ∧ strContains fig.title chart_type := by
  unfold create_single_column_chart at hfig
  simp only [] at hfig
  split_ifs at hfig
  all_goals
    first
      | exact Option.noConfusion hfig
      | (injection hfig with heq;
         subst heq;
         subst_vars;
         try rw [apply_color_theme_title];
         constructor <;>
           first
             | exact strContains_append_self "Bar Chart of " col
             | exact strContains_append_self "Line Chart of " col
             | exact strContains_append_self "Pie Chart of " col
             | exact strContains_append_self "Box Plot of " col
             | exact strContains_prefix_lit "Bar Chart of " col "Bar Chart"
                 " of " (by decide)
             | exact strContains_prefix_lit "Line Chart of " col "Line Chart"
                 " of " (by decide)
             | exact strContains_prefix_lit "Pie Chart of " col "Pie Chart"
                 " of " (by decide)
             | exact strContains_prefix_lit "Box Plot of " col "Box Plot"
                 " of " (by decide)
             | exact strContains_title5 "Bar Chart of " col " (Bin width: "
                 (toString bin_width) ")"
             | exact strContains_title5 "Line Chart of " col " (Bin width: "
                 (toString bin_width) ")"
             | exact strContains_title5 "Box Plot of " col " (Bin width: "
                 (toString bin_width) ")"
             | exact strContains_title5 "Histogram of " col " (Bin width: "
                 (toString bin_width) ")"
             | exact strContains_title5_kind "Bar Chart of " col " (Bin width: "
                 (toString bin_width) ")" "Bar Chart" " of " (by decide)
             | exact strContains_title5_kind "Line Chart of " col " (Bin width: "
                 (toString bin_width) ")" "Line Chart" " of " (by decide)
             | exact strContains_title5_kind "Box Plot of " col " (Bin width: "
                 (toString bin_width) ")" "Box Plot" " of " (by decide)
             | exact strContains_title5_kind "Histogram of " col " (Bin width: "
                 (toString bin_width) ")" "Histogram" " of " (by decide))

/-- Every two-column chart title embeds both column names; it embeds the
chart kind except in the aggregated branches, whose titles are
`Average … by …` / `Count by … and …`. -/
lemma two_column_title_parts (seqList qualList : String → List String)
    (rows : List (String × Val))
    (x_axis y_axis chart_type color_palette : String)
    (column_types : List (String × String)) (fig : Figure)
    (hfig : create_two_column_chart seqList qualList rows x_axis y_axis
      chart_type color_palette column_types = some fig) :
    strContains fig.title x_axis ∧ strContains fig.title y_axis ∧
      (isAggregatedRequest (lookupType column_types x_axis)
          (lookupType column_types y_axis) chart_type = false →
        strContains fig.title chart_type) := by
  by_cases hs : chart_type = "Scatter Plot"
  · subst hs
    unfold create_two_column_chart at hfig
    rw [if_pos rfl] at hfig
    split_ifs at hfig <;>
      (injection hfig with heq; subst heq;
       refine ⟨strContains_append_self _ x_axis,
         strContains_extend_right _ _ _ (strContains_extend_right _ _ _
           (strContains_append_self _ y_axis)),
         fun _ => strContains_extend_right _ _ _ (strContains_extend_right _ _ _
           (strContains_extend_right _ _ _
             (strContains_self_append _ ": ")))⟩)
  by_cases hb : chart_type = "Bar Chart"
  · subst hb
    unfold create_two_column_chart at hfig
    rw [if_neg (by decide : ¬ ("Bar Chart" = "Scatter Plot")),
      if_pos rfl] at hfig
    split_ifs at hfig with hc1 hc2 hc3
    · injection hfig with heq
      subst heq
      refine ⟨strContains_append_self _ x_axis,
        strContains_extend_right _ _ _ (strContains_extend_right _ _ _
          (strContains_append_self _ y_axis)), ?_⟩
      intro hagg
      exfalso
      obtain ⟨hx', hy'⟩ := hc1
      rcases hy' with h | h <;>
        simp [isAggregatedRequest, hx', h] at hagg
    · injection hfig with heq
      subst heq
      refine ⟨strContains_extend_right _ _ _ (strContains_extend_right _ _ _
          (strContains_append_self _ x_axis)),
        strContains_append_self _ y_axis, ?_⟩
      intro hagg
      exfalso
      obtain ⟨hx', hy'⟩ := hc2
      simp [isAggregatedRequest, hx', hy'] at hagg
    · injection hfig with heq
      subst heq
      refine ⟨strContains_extend_right _ _ _ (strContains_extend_right _ _ _
          (strContains_append_self _ x_axis)),
        strContains_append_self _ y_axis, ?_⟩
      intro hagg
      exfalso
      obtain ⟨hx', hy'⟩ := hc2
      simp [isAggregatedRequest, hx', hy'] at hagg
    · injection hfig with heq
      subst heq
      rw [apply_color_theme_title]
      exact ⟨strContains_append_self _ x_axis,
        strContains_extend_right _ _ _ (strContains_extend_right _ _ _
          (strContains_append_self _ y_axis)),
        fun _ => strContains_extend_right _ _ _ (strContains_extend_right _ _ _
          (strContains_extend_right _ _ _
            (strContains_self_append _ ": ")))⟩
  by_cases hl : chart_type = "Line Chart"
  · subst hl
    unfold create_two_column_chart at hfig
    rw [if_neg (by decide : ¬ ("Line Chart" = "Scatter Plot")),
      if_neg (by decide : ¬ ("Line Chart" = "Bar Chart")),
      if_pos rfl] at hfig
    split_ifs at hfig with hc1
    · injection hfig with heq
      subst heq
      rw [apply_color_theme_title]
      refine ⟨strContains_append_self _ x_axis,
        strContains_extend_right _ _ _ (strContains_extend_right _ _ _
          (strContains_append_self _ y_axis)), ?_⟩
      intro hagg
      exfalso
      obtain ⟨hx', hy'⟩ := hc1
      rcases hy' with h | h <;>
        simp [isAggregatedRequest, hx', h] at hagg
    · injection hfig with heq
      subst heq
      rw [apply_color_theme_title]
      exact ⟨strContains_append_self _ x_axis,
        strContains_extend_right _ _ _ (strContains_extend_right _ _ _
          (strContains_append_self _ y_axis)),
        fun _ => strContains_extend_right _ _ _ (strContains_extend_right _ _ _
          (strContains_extend_right _ _ _
            (strContains_self_append _ ": ")))⟩
  · unfold create_two_column_chart at hfig
    rw [if_neg hs, if_neg hb, if_neg hl] at hfig
    exact Option.noConfusion hfig

/-- C8 amended: every produced chart's title contains the selected column
name(s); single-column titles always contain the requested chart kind, and
two-column titles contain it except in the aggregated branches (mean
aggregation and pair counting), which are titled `Average … by …` and
`Count by … and …` without the kind. -/
theorem chart_titles (seqList qualList : String → List String) :
    (∀ (colStr : List String) (colNum : List Cell)
        (col col_type chart_type color_palette : String) (bin_width : ℚ)
        (fig : Figure),
      create_single_column_chart seqList qualList colStr colNum col col_type
          chart_type color_palette bin_width = some fig →
        strContains fig.title col ∧ strContains fig.title chart_type) ∧
    (∀ (rows : List (String × Val))
        (x_axis y_axis chart_type color_palette : String)
        (column_types : List (String × String)) (fig : Figure),
      create_two_column_chart seqList qualList rows x_axis y_axis chart_type
          color_palette column_types = some fig →
        strContains fig.title x_axis ∧ strContains fig.title y_axis ∧
          (isAggregatedRequest (lookupType column_types x_axis)
              (lookupType column_types y_axis) chart_type = false →
            strContains fig.title chart_type)) :=
  ⟨fun colStr colNum col col_type chart_type color_palette bin_width fig hfig =>
      single_column_title_parts seqList qualList colStr colNum col col_type
        chart_type color_palette bin_width fig hfig,
    fun rows x_axis y_axis chart_type color_palette column_types fig hfig =>
      two_column_title_parts seqList qualList rows x_axis y_axis chart_type
        color_palette column_types fig hfig⟩

/-- C8 counterexample: the mean-aggregated two-column bar chart
(x = `region`, categorical; y = `sales`, numeric) is titled
`Average sales by region`, which does not contain the requested kind
`Bar Chart`: the claim as stated fails for this supported combination. -/
theorem chart_titles_counterexample :
    ∃ fig, create_two_column_chart (fun _ => []) (fun _ => [])
        [("east", Val.num 1)] "region" "sales" "Bar Chart" "plotly"
        [("region", "Categorical"), ("sales", "Numeric (Continuous)")]
        = some fig ∧
      fig.title = "Average sales by region" ∧
      ¬ strContains fig.title "Bar Chart" := by
  refine ⟨pxBar (groupKeys [("east", Val.num 1)])
      ((groupKeys [("east", Val.num 1)]).map (groupMean [("east", Val.num 1)]))
      ("Average " ++ "sales" ++ " by " ++ "region"), ?_, ?_, ?_⟩
  · unfold create_two_column_chart
    rw [if_neg (by decide : ¬ ("Bar Chart" = "Scatter Plot")), if_pos rfl,
      if_pos ⟨by decide, Or.inl (by decide)⟩]
  · decide
  · decide
